import Mathlib

/-!
Shallow embedding of `src/image_processing.c` (an OpenMP image-filter demo).

The program reads a binary PPM (P6) image, applies either a 3x3 box blur
(`applyBlur`) or a Sobel edge-detection filter (`applyEdgeDetection`) once
sequentially and once with OpenMP, and writes the result of the second
(parallel) run.

Modelling decisions, each tied to the C source:
* `unsigned char` samples are `Nat`; a store through an `unsigned char`
  lvalue truncates mod 256 (`toByte`).
* `malloc` returns uninitialized memory.  Both filters allocate a scratch
  buffer `temp`, write only the interior pixels, and then `memcpy` the whole
  of `temp` over the image.  The border cells of `temp` are therefore
  whatever bytes `malloc` happened to hand out; we model this by passing the
  initial contents of `temp` explicitly as a `garbage` list.
* The OpenMP pragma (`parallel for collapse(2) schedule(dynamic)`) assigns
  each (y,x) iteration to some thread; every iteration writes a disjoint
  triple of cells of `temp` and reads only `img->data`, so the parallel run
  is modelled by the per-cell function `applyFilterPar`, while the
  sequential run is the left-to-right fold `applyFilter` over the loop
  iterations.  Their equality is proved, not assumed.
* `fmin(sqrt(gx*gx+gy*gy), 255)` followed by conversion to `unsigned char`:
  `gx*gx+gy*gy <= 2*1020^2 = 2080800`, which is exactly representable in
  `double`, and the correctly rounded `sqrt` of such an integer truncates to
  the integer square root (the fractional distance from the next integer is
  at least about 3e-4, far above one ulp at magnitude <= 1443).  We
  therefore model the stored value as `Nat.sqrt`, the floor of the real
  square root.
-/

/-- Mirrors `typedef struct { int width, height; unsigned char *data; } Image;`
with the pixel bytes as a list, index `3*(y*width+x)+c`. -/
structure Image where
  width : Nat
  height : Nat
  data : List Nat
deriving Repr, DecidableEq

/-- Conversion of a nonnegative int to `unsigned char` (C truncates mod 256). -/
def toByte (n : Nat) : Nat := n % 256

/-- Reading `img->data[3*(y*w+x)+c]`; out-of-range reads are given the junk
value 0 (the interior loops proved below never perform one). -/
def Image.sample (img : Image) (x y c : Nat) : Nat :=
  img.data.getD (3 * (y * img.width + x) + c) 0

/-- The nine `(dy+1, dx+1)` offset pairs visited by the inner
`for (dy=-1..1) for (dx=-1..1)` loops, in source order. -/
def offsets : List (Nat × Nat) :=
  [(0,0), (0,1), (0,2), (1,0), (1,1), (1,2), (2,0), (2,1), (2,2)]

/-- The blur accumulator `sumR`/`sumG`/`sumB` for channel `c` at interior
pixel `(x,y)` (so `x-1+s = x+dx`, `y-1+r = y+dy`). -/
def blurSum (img : Image) (x y c : Nat) : Nat :=
  (offsets.map fun rs => img.sample (x - 1 + rs.2) (y - 1 + rs.1) c).sum

/-- The byte stored by `temp[idx+c] = sum / count;` — `count` is incremented
once per neighbor, hence equals `offsets.length = 9`. -/
def blurPixel (img : Image) (x y c : Nat) : Nat :=
  toByte (blurSum img x y c / offsets.length)

/-- The C array `int Gx[3][3] = {{-1,0,1},{-2,0,2},{-1,0,1}};`. -/
def GxKernel : List (List Int) := [[-1, 0, 1], [-2, 0, 2], [-1, 0, 1]]

/-- The C array `int Gy[3][3] = {{-1,-2,-1},{0,0,0},{1,2,1}};`. -/
def GyKernel : List (List Int) := [[-1, -2, -1], [0, 0, 0], [1, 2, 1]]

/-- `k[r][s]` for a 3x3 kernel. -/
def kElem (k : List (List Int)) (r s : Nat) : Int := (k.getD r []).getD s 0

/-- The Sobel accumulator `sumRx`(etc.): sum over the nine neighbors of
`weight * sample` where `weight = k[dy+1][dx+1]`. -/
def sobelG (k : List (List Int)) (img : Image) (x y c : Nat) : Int :=
  (offsets.map fun rs =>
    kElem k rs.1 rs.2 * (img.sample (x - 1 + rs.2) (y - 1 + rs.1) c : Int)).sum

/-- The byte stored by `temp[idx+c] = fmin(sqrt(sx*sx + sy*sy), 255);`
(see the header comment for why the double computation equals `Nat.sqrt`). -/
def sobelPixel (img : Image) (x y c : Nat) : Nat :=
  toByte (min (Nat.sqrt (sobelG GxKernel img x y c * sobelG GxKernel img x y c +
    sobelG GyKernel img x y c * sobelG GyKernel img x y c).toNat) 255)

/-- The iteration space of `for (y = 1; y < h-1; y++) for (x = 1; x < w-1; x++)`,
as the list of `(y, x)` pairs in source order. -/
def loopPixels (w h : Nat) : List (Nat × Nat) :=
  (List.range' 1 (h - 2)).flatMap fun y =>
    (List.range' 1 (w - 2)).map fun x => (y, x)

/-- One iteration of the filter loop body: writes channels 0,1,2 of output
pixel `(y, x)` into the scratch buffer. -/
def writeChannels (f : Image → Nat → Nat → Nat → Nat) (img : Image)
    (temp : List Nat) (yx : Nat × Nat) : List Nat :=
  let idx := 3 * (yx.1 * img.width + yx.2)
  ((temp.set idx (f img yx.2 yx.1 0)).set (idx + 1) (f img yx.2 yx.1 1)).set
    (idx + 2) (f img yx.2 yx.1 2)

/-- Sequential execution of `applyBlur`/`applyEdgeDetection` (the
`use_openmp = 0` path): run the doubly nested loop left to right over the
scratch buffer `garbage` (the uninitialized `malloc` result), then
`memcpy(img->data, temp, 3*w*h)` replaces the whole data array. -/
def applyFilter (f : Image → Nat → Nat → Nat → Nat) (img : Image)
    (garbage : List Nat) : Image :=
  { img with data := (loopPixels img.width img.height).foldl (writeChannels f img) garbage }

/-- Value of cell `i` of the scratch buffer after the parallel loop: cells of
interior pixels (`x = (i/3) % w`, `y = (i/3) / w`, channel `i % 3`) are
computed from the input image, every other cell keeps its uninitialized
`malloc` byte. -/
def parCell (f : Image → Nat → Nat → Nat → Nat) (img : Image)
    (garbage : List Nat) (i : Nat) : Nat :=
  if 1 ≤ (i / 3) % img.width ∧ (i / 3) % img.width < img.width - 1 ∧
      1 ≤ (i / 3) / img.width ∧ (i / 3) / img.width < img.height - 1 then
    f img ((i / 3) % img.width) ((i / 3) / img.width) (i % 3)
  else garbage.getD i 0

/-- Parallel execution (the `use_openmp = 1` path, pragma
`omp parallel for collapse(2) schedule(dynamic)`): every iteration writes a
disjoint cell triple of `temp` and only reads `img->data`, so the loop is the
per-cell map `parCell` regardless of how iterations are scheduled. -/
def applyFilterPar (f : Image → Nat → Nat → Nat → Nat) (img : Image)
    (garbage : List Nat) : Image :=
  { img with data := (List.range (3 * img.width * img.height)).map (parCell f img garbage) }

/-- `applyBlur` from the C source (result of the call, sequential path). -/
def applyBlur (img : Image) (garbage : List Nat) : Image :=
  applyFilter blurPixel img garbage

/-- `applyEdgeDetection` from the C source (result of the call, sequential path). -/
def applyEdgeDetection (img : Image) (garbage : List Nat) : Image :=
  applyFilter sobelPixel img garbage

/-- An all-one-color image: `w` by `h`, every channel of every pixel is `v`. -/
def constImage (w h v : Nat) : Image :=
  { width := w, height := h, data := List.replicate (3 * w * h) v }

/-- A PPM input file as parsed by
`fscanf(fp, "%s\n%d %d\n%d\n", format, &w, &h, &maxColor)` followed by the
payload read by `fread`: the header token, the two dimensions, the declared
maximum sample value, and the raw sample bytes.  (Dimensions are modelled as
naturals; the claims treated here do not involve negative header fields.) -/
structure PPMFile where
  format : String
  width : Nat
  height : Nat
  maxColor : Nat
  bytes : List Nat
deriving Repr, DecidableEq

/-- `#define MAX_COLOR 255`. -/
def MAX_COLOR : Nat := 255

/-- `readPPM`: the check
`if (strcmp(format, "P6") != 0 || maxColor != MAX_COLOR) { ... exit(1); }`
makes any other header fatal (`none`); otherwise the image is built from the
header dimensions and the payload bytes.  (`fread` of a too-short payload is
left undefined by the origin and is outside the claims handled here.) -/
def readPPM (file : PPMFile) : Option Image :=
  if file.format = "P6" ∧ file.maxColor = MAX_COLOR then
    some { width := file.width, height := file.height, data := file.bytes }
  else none

/-- The filter dispatch in `main`:
`if (filter_type == 1) applyBlur(...); else if (filter_type == 2)
applyEdgeDetection(...);` — any other value leaves the image untouched.
`filter_type` is the `int` produced by `atoi(argv[3])`. -/
def chooseFilter (filterType : Int) (img : Image) (garbage : List Nat) : Image :=
  if filterType = 1 then applyBlur img garbage
  else if filterType = 2 then applyEdgeDetection img garbage
  else img

/-- Observable outcome of a run of `main` (after argument-count checking):
either some `exit(1)` fired before `writePPM`, so no output file exists, or
`writePPM(argv[2], img)` wrote exactly the buffer `img`. -/
inductive ProgOutcome where
  | fatal
  | wrote (img : Image)
deriving Repr, DecidableEq

/-- The body of `main` for a well-formed argument count: decode the input
(fatal on bad header), run the chosen filter serially (`use_openmp = 0`,
scratch contents `g1`), re-decode the same file, run the filter again in
parallel (scratch contents `g2`), and write that second result with
`writePPM`.  The serial result is overwritten by the second decode and never
written out. -/
def runMain (file : PPMFile) (filterType : Int) (g1 g2 : List Nat) : ProgOutcome :=
  match readPPM file with
  | none => ProgOutcome.fatal
  | some img =>
    let _serial := chooseFilter filterType img g1
    match readPPM file with
    | none => ProgOutcome.fatal
    | some img2 => ProgOutcome.wrote (chooseFilter filterType img2 g2)

/-! ### Concrete instances used as failing inputs and witnesses -/

/-- A 3x3 image with every channel 255 (all white). -/
def exWhite3 : Image := constImage 3 3 255

/-- A 3x3 image with every channel 200. -/
def const200 : Image := constImage 3 3 200

/-- A 2x2 image with every channel 5 (no interior pixel). -/
def ex2x2 : Image := constImage 2 2 5

/-- One possible content of the uninitialized 27-byte scratch buffer: zeros. -/
def zeros27 : List Nat := List.replicate 27 0

/-- Another possible content of the same scratch buffer: ones. -/
def ones27 : List Nat := List.replicate 27 1

/-- Scratch contents 9 for the 3x3 examples. -/
def nines27 : List Nat := List.replicate 27 9

/-- Scratch contents 7 for the 2x2 example. -/
def sevens12 : List Nat := List.replicate 12 7

/-- A well-formed 1x1 input file. -/
def goodFile : PPMFile :=
  { format := "P6", width := 1, height := 1, maxColor := 255, bytes := [10, 20, 30] }

/-! ### Generic facts about the loop -/

/-- Reading a `List.set` result below the length: the written value at the
written position, the old value elsewhere. -/
lemma getD_set_of_lt (l : List Nat) (j v i : Nat) (hi : i < l.length) :
    (l.set j v).getD i 0 = if j = i then v else l.getD i 0 := by
  by_cases h : j = i
  · subst h
    rw [if_pos rfl, List.getD_eq_getElem _ 0 (by simpa using hi)]
    simp [List.getElem_set_self, hi]
  · rw [if_neg h, List.getD_eq_getElem _ 0 (by simpa using hi),
      List.getD_eq_getElem l 0 hi]
    exact List.getElem_set_ne h _

/-- One loop iteration preserves the scratch buffer length. -/
lemma length_writeChannels (f : Image → Nat → Nat → Nat → Nat) (img : Image)
    (temp : List Nat) (yx : Nat × Nat) :
    (writeChannels f img temp yx).length = temp.length := by
  simp [writeChannels]

/-- Effect of one loop iteration on an arbitrary cell `i` of the scratch
buffer: iteration `(y, x)` overwrites exactly the cells
`3*(y*w+x) .. 3*(y*w+x)+2`. -/
lemma writeChannels_getD (f : Image → Nat → Nat → Nat → Nat) (img : Image)
    (temp : List Nat) (y x i : Nat) (hi : i < temp.length) :
    (writeChannels f img temp (y, x)).getD i 0 =
      if 3 * (y * img.width + x) ≤ i ∧ i < 3 * (y * img.width + x) + 3 then
        f img x y (i - 3 * (y * img.width + x))
      else temp.getD i 0 := by
  unfold writeChannels
  rw [getD_set_of_lt _ _ _ _ (by simpa using hi),
    getD_set_of_lt _ _ _ _ (by simpa using hi), getD_set_of_lt _ _ _ _ hi]
  by_cases h2 : 3 * (y * img.width + x) + 2 = i
  · rw [if_pos h2, if_pos (by omega)]
    congr 1
    omega
  · rw [if_neg h2]
    by_cases h1 : 3 * (y * img.width + x) + 1 = i
    · rw [if_pos h1, if_pos (by omega)]
      congr 1
      omega
    · rw [if_neg h1]
      by_cases h0 : 3 * (y * img.width + x) = i
      · rw [if_pos h0, if_pos (by omega)]
        congr 1
        omega
      · rw [if_neg h0, if_neg (by omega)]

/-- The whole loop preserves the scratch buffer length. -/
lemma length_foldl_writeChannels (f : Image → Nat → Nat → Nat → Nat)
    (img : Image) (ps : List (Nat × Nat)) (t : List Nat) :
    (ps.foldl (writeChannels f img) t).length = t.length := by
  induction ps generalizing t with
  | nil => rfl
  | cons p rest ih => rw [List.foldl_cons, ih, length_writeChannels]

/-- Decoding the flat cell index `3*(y*w+x)+c` back into `x`, `y` and the
channel `c`, valid whenever `x < w` and `c < 3`. -/
lemma cell_decode (w x y c : Nat) (hxw : x < w) (hc : c < 3) :
    ((3 * (y * w + x) + c) / 3) % w = x ∧ ((3 * (y * w + x) + c) / 3) / w = y ∧
      (3 * (y * w + x) + c) % 3 = c := by
  have hdiv : (3 * (y * w + x) + c) / 3 = y * w + x := by omega
  refine ⟨?_, ?_, by omega⟩
  · rw [hdiv, Nat.mul_comm y w, Nat.mul_add_mod, Nat.mod_eq_of_lt hxw]
  · rw [hdiv, Nat.mul_comm y w, Nat.mul_add_div (by omega), Nat.div_eq_of_lt hxw]
    omega

/-- Cumulative effect of the loop on cell `i`: if some iteration in `ps`
writes cell `i`, the cell holds the filter value for the decoded pixel and
channel; otherwise it keeps its initial contents.  Because every iteration
that writes cell `i` writes the same value (the filter reads only the input
image), the statement needs no distinctness of `ps`. -/
lemma foldl_writeChannels_getD (f : Image → Nat → Nat → Nat → Nat)
    (img : Image) (ps : List (Nat × Nat)) (t : List Nat)
    (hx : ∀ p ∈ ps, p.2 < img.width) (i : Nat) (hi : i < t.length) :
    (ps.foldl (writeChannels f img) t).getD i 0 =
      if ∃ p ∈ ps, 3 * (p.1 * img.width + p.2) ≤ i ∧
          i < 3 * (p.1 * img.width + p.2) + 3 then
        f img ((i / 3) % img.width) ((i / 3) / img.width) (i % 3)
      else t.getD i 0 := by
  induction ps generalizing t with
  | nil => simp
  | cons p rest ih =>
    obtain ⟨y, x⟩ := p
    rw [List.foldl_cons,
      ih _ (fun q hq => hx q (List.mem_cons_of_mem _ hq))
        (by rw [length_writeChannels]; exact hi),
      writeChannels_getD f img t y x i hi]
    by_cases hrest : ∃ q ∈ rest, 3 * (q.1 * img.width + q.2) ≤ i ∧
        i < 3 * (q.1 * img.width + q.2) + 3
    · obtain ⟨q, hq, hW⟩ := hrest
      rw [if_pos ⟨q, hq, hW⟩, if_pos ⟨q, List.mem_cons_of_mem _ hq, hW⟩]
    · rw [if_neg hrest]
      by_cases hp : 3 * (y * img.width + x) ≤ i ∧ i < 3 * (y * img.width + x) + 3
      · rw [if_pos hp, if_pos ⟨(y, x), List.mem_cons_self _ _, hp⟩]
        have hxw : x < img.width := hx (y, x) (List.mem_cons_self _ _)
        have hc : i - 3 * (y * img.width + x) < 3 := by omega
        obtain ⟨d1, d2, d3⟩ := cell_decode img.width x y _ hxw hc
        have hieq : 3 * (y * img.width + x) + (i - 3 * (y * img.width + x)) = i := by
          omega
        rw [hieq] at d1 d2 d3
        rw [d1, d2, d3]
      · rw [if_neg hp, if_neg ?_]
        rintro ⟨q, hq, hW⟩
        rcases List.mem_cons.mp hq with h | h
        · subst h
          exact hp hW
        · exact hrest ⟨q, h, hW⟩

/-- Membership in the loop iteration space is exactly the interior-pixel
condition of the C loops. -/
lemma mem_loopPixels (w h y x : Nat) :
    (y, x) ∈ loopPixels w h ↔ 1 ≤ y ∧ y < h - 1 ∧ 1 ≤ x ∧ x < w - 1 := by
  simp only [loopPixels, List.mem_flatMap, List.mem_map, List.mem_range'_1,
    Prod.mk.injEq]
  constructor
  · rintro ⟨a, ⟨ha1, ha2⟩, b, ⟨hb1, hb2⟩, hby, hbx⟩
    subst hby
    subst hbx
    omega
  · rintro ⟨hy1, hy2, hx1, hx2⟩
    exact ⟨y, by omega, x, by omega, rfl, rfl⟩

/-- Some loop iteration writes cell `i` exactly when `i` is a cell of an
interior pixel. -/
lemma exists_writer_iff (w h i : Nat) :
    (∃ p ∈ loopPixels w h, 3 * (p.1 * w + p.2) ≤ i ∧
        i < 3 * (p.1 * w + p.2) + 3) ↔
      1 ≤ (i / 3) % w ∧ (i / 3) % w < w - 1 ∧ 1 ≤ (i / 3) / w ∧
        (i / 3) / w < h - 1 := by
  constructor
  · rintro ⟨⟨y, x⟩, hp, hle, hlt⟩
    rw [mem_loopPixels] at hp
    dsimp only at hle hlt
    have hxw : x < w := by omega
    have hc : i - 3 * (y * w + x) < 3 := by omega
    obtain ⟨d1, d2, d3⟩ := cell_decode w x y _ hxw hc
    have hieq : 3 * (y * w + x) + (i - 3 * (y * w + x)) = i := by omega
    rw [hieq] at d1 d2 d3
    rw [d1, d2]
    omega
  · rintro ⟨h1, h2, h3, h4⟩
    refine ⟨((i / 3) / w, (i / 3) % w), ?_, ?_, ?_⟩
    · rw [mem_loopPixels]
      exact ⟨h3, h4, h1, h2⟩
    · have hq : (i / 3) / w * w + (i / 3) % w = i / 3 := Nat.div_add_mod' _ _
      dsimp only
      omega
    · have hq : (i / 3) / w * w + (i / 3) % w = i / 3 := Nat.div_add_mod' _ _
      dsimp only
      omega

/-- The sequential loop and the per-cell parallel description produce the
same image whenever the scratch buffer has the allocated size `3*w*h` —
the determinism of the parallel decomposition, given equal `malloc` contents. -/
lemma applyFilter_eq_par (f : Image → Nat → Nat → Nat → Nat) (img : Image)
    (garbage : List Nat)
    (hlen : garbage.length = 3 * img.width * img.height) :
    applyFilter f img garbage = applyFilterPar f img garbage := by
  unfold applyFilter applyFilterPar
  congr 1
  apply List.ext_getElem
  · rw [length_foldl_writeChannels, hlen]
    simp
  · intro i h1 h2
    have hi : i < garbage.length := by
      rwa [length_foldl_writeChannels] at h1
    have hn : i < 3 * img.width * img.height := by omega
    rw [← List.getD_eq_getElem _ 0 h1, ← List.getD_eq_getElem _ 0 h2,
      foldl_writeChannels_getD f img _ garbage
        (fun p hp => by rw [mem_loopPixels] at hp; omega) i hi]
    have hr : ((List.range (3 * img.width * img.height)).map
        (parCell f img garbage)).getD i 0 = parCell f img garbage i := by
      rw [List.getD_eq_getElem _ 0 (by simpa using hn)]
      simp
    rw [hr]
    unfold parCell
    by_cases hcond : 1 ≤ (i / 3) % img.width ∧ (i / 3) % img.width < img.width - 1 ∧
        1 ≤ (i / 3) / img.width ∧ (i / 3) / img.width < img.height - 1
    · rw [if_pos ((exists_writer_iff img.width img.height i).mpr hcond), if_pos hcond]
    · rw [if_neg (fun hw => hcond ((exists_writer_iff img.width img.height i).mp hw)),
        if_neg hcond]

/-! ### Interior values of the filter output -/

/-- A cell index of an interior pixel is inside the allocated buffer. -/
lemma interior_index_lt (w h x y c : Nat) (hx1 : 1 ≤ x) (hx2 : x < w - 1)
    (hy2 : y < h - 1) (hc : c < 3) : 3 * (y * w + x) + c < 3 * w * h := by
  have hw : 2 ≤ w := by omega
  have hyh : y + 1 ≤ h := by omega
  have h1 : y * w + x < (y + 1) * w := by
    have : (y + 1) * w = y * w + w := by ring
    omega
  have h2 : (y + 1) * w ≤ h * w := Nat.mul_le_mul_right w hyh
  have h3 : y * w + x < w * h := by
    have : h * w = w * h := Nat.mul_comm h w
    omega
  have h4 : 3 * w * h = 3 * (w * h) := by ring
  omega

/-- The output byte of either run at a cell of interior pixel `(x, y)` is the
per-pixel filter value. -/
lemma applyFilter_interior (f : Image → Nat → Nat → Nat → Nat) (img : Image)
    (garbage : List Nat)
    (hlen : garbage.length = 3 * img.width * img.height)
    (x y c : Nat) (hx1 : 1 ≤ x) (hx2 : x < img.width - 1)
    (hy1 : 1 ≤ y) (hy2 : y < img.height - 1) (hc : c < 3) :
    (applyFilter f img garbage).data.getD (3 * (y * img.width + x) + c) 0 =
      f img x y c := by
  rw [applyFilter_eq_par f img garbage hlen]
  have hxw : x < img.width := by omega
  have hlt : 3 * (y * img.width + x) + c < 3 * img.width * img.height :=
    interior_index_lt img.width img.height x y c hx1 hx2 hy2 hc
  show ((List.range (3 * img.width * img.height)).map
      (parCell f img garbage)).getD (3 * (y * img.width + x) + c) 0 = f img x y c
  rw [List.getD_eq_getElem _ 0 (by simpa using hlt)]
  simp only [List.getElem_map, List.getElem_range]
  obtain ⟨d1, d2, d3⟩ := cell_decode img.width x y c hxw hc
  unfold parCell
  rw [d1, d2, d3, if_pos ⟨hx1, hx2, hy1, hy2⟩]

/-! ### Bounds on samples and filter values -/

/-- Any `getD` read from a list of bytes is at most 255. -/
lemma getD_le_255 (l : List Nat) (h255 : ∀ v ∈ l, v ≤ 255) (i : Nat) :
    l.getD i 0 ≤ 255 := by
  by_cases h : i < l.length
  · rw [List.getD_eq_getElem l 0 h]
    exact h255 _ (List.getElem_mem h)
  · simp [List.getD_eq_getElem?_getD,
      List.getElem?_eq_none (by omega : l.length ≤ i)]

/-- Samples of an image whose bytes are bytes are at most 255. -/
lemma sample_le_255 (img : Image) (h255 : ∀ v ∈ img.data, v ≤ 255)
    (x y c : Nat) : img.sample x y c ≤ 255 :=
  getD_le_255 img.data h255 _

/-- The blur accumulator is at most `9 * 255`. -/
lemma blurSum_le (img : Image) (h255 : ∀ v ∈ img.data, v ≤ 255) (x y c : Nat) :
    blurSum img x y c ≤ 2295 := by
  have hb : ∀ u ∈ offsets.map fun rs =>
      img.sample (x - 1 + rs.2) (y - 1 + rs.1) c, u ≤ 255 := by
    rintro u hu
    rw [List.mem_map] at hu
    obtain ⟨rs, _, rfl⟩ := hu
    exact sample_le_255 img h255 _ _ _
  have := List.sum_le_card_nsmul _ 255 hb
  simpa [blurSum, offsets] using this

/-- The averaged value fits in a byte, so the `unsigned char` store does not
truncate: the stored blur byte is exactly `sum / 9`. -/
lemma blurPixel_eq_div (img : Image) (h255 : ∀ v ∈ img.data, v ≤ 255)
    (x y c : Nat) : blurPixel img x y c = blurSum img x y c / 9 := by
  have h1 : blurSum img x y c / 9 ≤ 255 := by
    have := blurSum_le img h255 x y c
    omega
  unfold blurPixel toByte
  have hlen9 : offsets.length = 9 := rfl
  rw [hlen9]
  exact Nat.mod_eq_of_lt (by omega)

/-- The averaged value is at most 255. -/
lemma blurDiv_le (img : Image) (h255 : ∀ v ∈ img.data, v ≤ 255) (x y c : Nat) :
    blurSum img x y c / 9 ≤ 255 := by
  have := blurSum_le img h255 x y c
  omega

/-- The clamp keeps the stored Sobel byte within a byte, so the
`unsigned char` store does not truncate: the stored byte is exactly
`min 255 (sqrt of the squared gradient magnitude)`. -/
lemma sobelPixel_eq_min (img : Image) (x y c : Nat) :
    sobelPixel img x y c =
      min 255 (Nat.sqrt (sobelG GxKernel img x y c * sobelG GxKernel img x y c +
        sobelG GyKernel img x y c * sobelG GyKernel img x y c).toNat) := by
  unfold sobelPixel toByte
  rw [Nat.mod_eq_of_lt (by omega : min (Nat.sqrt _) 255 < 256), Nat.min_comm]

/-- The stored Sobel byte never exceeds 255. -/
lemma sobelPixel_le (img : Image) (x y c : Nat) : sobelPixel img x y c ≤ 255 := by
  rw [sobelPixel_eq_min]
  exact min_le_left _ _

/-! ### Constant-color images -/

/-- Any cell index of an in-bounds pixel is inside the allocated buffer. -/
lemma cell_index_lt (w h x y c : Nat) (hx : x < w) (hy : y < h) (hc : c < 3) :
    3 * (y * w + x) + c < 3 * w * h := by
  have h1 : y * w + x < (y + 1) * w := by
    have : (y + 1) * w = y * w + w := by ring
    omega
  have h2 : (y + 1) * w ≤ h * w := Nat.mul_le_mul_right w (by omega)
  have h3 : h * w = w * h := Nat.mul_comm h w
  have h4 : 3 * w * h = 3 * (w * h) := by ring
  omega

/-- Every in-bounds sample of a constant-color image is the constant. -/
lemma sample_const (w h v x y c : Nat) (hx : x < w) (hy : y < h) (hc : c < 3) :
    (constImage w h v).sample x y c = v := by
  show (List.replicate (3 * w * h) v).getD (3 * (y * w + x) + c) 0 = v
  rw [List.getD_eq_getElem _ 0 (by simpa using cell_index_lt w h x y c hx hy hc)]
  simp

/-- The nine loop offsets stay within the 3x3 window. -/
lemma offsets_bound : ∀ rs ∈ offsets, rs.1 < 3 ∧ rs.2 < 3 := by decide

/-- On a constant-color image the Sobel accumulator is the kernel weight sum
times the constant. -/
lemma sobelG_const (k : List (List Int)) (w h v x y c : Nat)
    (hx1 : 1 ≤ x) (hx2 : x < w - 1) (hy1 : 1 ≤ y) (hy2 : y < h - 1)
    (hc : c < 3) :
    sobelG k (constImage w h v) x y c =
      (offsets.map fun rs => kElem k rs.1 rs.2).sum * (v : Int) := by
  unfold sobelG
  have hmap : (offsets.map fun rs => kElem k rs.1 rs.2 *
      ((constImage w h v).sample (x - 1 + rs.2) (y - 1 + rs.1) c : Int)) =
      offsets.map fun rs => kElem k rs.1 rs.2 * (v : Int) := by
    apply List.map_congr_left
    intro rs hrs
    obtain ⟨hr1, hr2⟩ := offsets_bound rs hrs
    rw [sample_const w h v _ _ c (by omega) (by omega) hc]
  rw [hmap, List.sum_map_mul_right]

/-! ### The claims -/

/-- C1: the spec asserts that every border pixel of the output is
byte-identical to the input under both policies.  The code violates this:
the loops write only interior cells of the `malloc`ed scratch buffer and
then `memcpy` the whole buffer over the image, so border bytes are
uninitialized memory.  Evaluated at an all-white 3x3 image with a zeroed
scratch buffer, every border byte of the blur output is 0 (not 255) and the
Sobel output border byte is likewise 0. -/
theorem claim_C1 :
    (applyBlur exWhite3 zeros27).data =
      [0, 0, 0, 0, 0, 0, 0, 0, 0, 0, 0, 0, 255, 255, 255,
        0, 0, 0, 0, 0, 0, 0, 0, 0, 0, 0, 0] ∧
    exWhite3.data.getD 0 0 = 255 ∧
    (applyEdgeDetection exWhite3 zeros27).data.getD 0 0 = 0 := by
  decide

/-- C2: for `w < 3` or `h < 3` the interior loop range is indeed empty (so
no neighborhood read happens at all — the no-out-of-bounds half of the claim
holds), but the output does NOT equal the input: the untouched scratch
buffer is copied over the image wholesale, so every pixel becomes
uninitialized memory.  Evaluated at a 2x2 all-5 image with scratch bytes 7,
both filters output all-7. -/
theorem claim_C2 :
    (∀ w h : Nat, w < 3 ∨ h < 3 → loopPixels w h = []) ∧
    (applyBlur ex2x2 sevens12).data = List.replicate 12 7 ∧
    (applyEdgeDetection ex2x2 sevens12).data = List.replicate 12 7 ∧
    ex2x2.data = List.replicate 12 5 := by
  refine ⟨?_, by decide, by decide, by decide⟩
  intro w h hwh
  unfold loopPixels
  rcases hwh with h1 | h1
  · have hw : w - 2 = 0 := by omega
    rw [hw]
    simp
  · have hh : h - 2 = 0 := by omega
    rw [hh]
    simp

/-- C2 witness: the interior loop range is empty at `w = 2`, `h = 5`. -/
theorem claim_C2_witness : loopPixels 2 5 = [] :=
  claim_C2.1 2 5 (Or.inl (by decide))

/-- C3: under the Average policy every interior output channel is the sum of
the nine neighborhood samples (center included) divided by 9 with integer
truncation, and that value is at most 255 (hence in `[0, 255]`). -/
theorem claim_C3 (img : Image) (garbage : List Nat) (x y c : Nat)
    (hlen : garbage.length = 3 * img.width * img.height)
    (h255 : ∀ v ∈ img.data, v ≤ 255)
    (hw : 3 ≤ img.width) (hh : 3 ≤ img.height)
    (hx1 : 1 ≤ x) (hx2 : x ≤ img.width - 2)
    (hy1 : 1 ≤ y) (hy2 : y ≤ img.height - 2) (hc : c < 3) :
    (applyBlur img garbage).data.getD (3 * (y * img.width + x) + c) 0 =
      blurSum img x y c / 9 ∧ blurSum img x y c / 9 ≤ 255 := by
  have hx2' : x < img.width - 1 := by omega
  have hy2' : y < img.height - 1 := by omega
  refine ⟨?_, blurDiv_le img h255 x y c⟩
  unfold applyBlur
  rw [applyFilter_interior blurPixel img garbage hlen x y c hx1 hx2' hy1 hy2' hc]
  exact blurPixel_eq_div img h255 x y c

/-- C3 witness: at the center of the all-white 3x3 image the blur output is
`2295 / 9 = 255`. -/
theorem claim_C3_witness :
    (applyBlur exWhite3 zeros27).data.getD
        (3 * (1 * exWhite3.width + 1) + 0) 0 =
      blurSum exWhite3 1 1 0 / 9 ∧ blurSum exWhite3 1 1 0 / 9 ≤ 255 :=
  claim_C3 exWhite3 zeros27 1 1 0 (by decide) (by decide) (by decide)
    (by decide) (by decide) (by decide) (by decide) (by decide) (by decide)

/-- C4: under the Sobel policy every interior output channel equals
`min(255, ⌊sqrt(Gx2 + Gy2)⌋)` where `Gx`, `Gy` are the convolutions of the
neighborhood with the kernels `GxKernel = [[-1,0,1],[-2,0,2],[-1,0,1]]` and
`GyKernel = [[-1,-2,-1],[0,0,0],[1,2,1]]` (see the header comment for the
identification of the `double` computation with `Nat.sqrt`). -/
theorem claim_C4 (img : Image) (garbage : List Nat) (x y c : Nat)
    (hlen : garbage.length = 3 * img.width * img.height)
    (hw : 3 ≤ img.width) (hh : 3 ≤ img.height)
    (hx1 : 1 ≤ x) (hx2 : x ≤ img.width - 2)
    (hy1 : 1 ≤ y) (hy2 : y ≤ img.height - 2) (hc : c < 3) :
    (applyEdgeDetection img garbage).data.getD (3 * (y * img.width + x) + c) 0 =
      min 255 (Nat.sqrt (sobelG GxKernel img x y c * sobelG GxKernel img x y c +
        sobelG GyKernel img x y c * sobelG GyKernel img x y c).toNat) := by
  have hx2' : x < img.width - 1 := by omega
  have hy2' : y < img.height - 1 := by omega
  unfold applyEdgeDetection
  rw [applyFilter_interior sobelPixel img garbage hlen x y c hx1 hx2' hy1 hy2' hc]
  exact sobelPixel_eq_min img x y c

/-- C4 witness: at the center of the all-white 3x3 image both gradients are
0, so the Sobel output is `min 255 0 = 0`. -/
theorem claim_C4_witness :
    (applyEdgeDetection exWhite3 zeros27).data.getD
        (3 * (1 * exWhite3.width + 1) + 0) 0 =
      min 255 (Nat.sqrt (sobelG GxKernel exWhite3 1 1 0 * sobelG GxKernel exWhite3 1 1 0 +
        sobelG GyKernel exWhite3 1 1 0 * sobelG GyKernel exWhite3 1 1 0).toNat) :=
  claim_C4 exWhite3 zeros27 1 1 0 (by decide) (by decide) (by decide)
    (by decide) (by decide) (by decide) (by decide) (by decide)

/-- C5: under the Sobel policy every interior output channel is at most 255:
the magnitude is clamped, never wrapped, for every input buffer. -/
theorem claim_C5 (img : Image) (garbage : List Nat) (x y c : Nat)
    (hlen : garbage.length = 3 * img.width * img.height)
    (hx1 : 1 ≤ x) (hx2 : x < img.width - 1)
    (hy1 : 1 ≤ y) (hy2 : y < img.height - 1) (hc : c < 3) :
    (applyEdgeDetection img garbage).data.getD (3 * (y * img.width + x) + c) 0 ≤ 255 := by
  unfold applyEdgeDetection
  rw [applyFilter_interior sobelPixel img garbage hlen x y c hx1 hx2 hy1 hy2 hc]
  exact sobelPixel_le img x y c

/-- C5 witness: the clamp law evaluated at the center of the all-white 3x3
image. -/
theorem claim_C5_witness :
    (applyEdgeDetection exWhite3 zeros27).data.getD
        (3 * (1 * exWhite3.width + 1) + 0) 0 ≤ 255 :=
  claim_C5 exWhite3 zeros27 1 1 0 (by decide) (by decide) (by decide)
    (by decide) (by decide) (by decide)

/-- C6: the parallel decomposition itself is deterministic — given the same
scratch-buffer contents, the sequential loop and the per-cell parallel
computation produce byte-identical images (first conjunct).  But the program
`malloc`s a fresh scratch buffer for each of the two runs, and the border
bytes of the output are exactly those uninitialized scratch bytes, so the
two runs are NOT guaranteed byte-identical: with scratch contents 0 for the
sequential run and 1 for the parallel run on the same all-white 3x3 input,
the outputs differ (second conjunct), although they agree on the interior
(third conjunct). -/
theorem claim_C6 :
    (∀ (f : Image → Nat → Nat → Nat → Nat) (img : Image) (g : List Nat),
        g.length = 3 * img.width * img.height →
        applyFilter f img g = applyFilterPar f img g) ∧
    applyBlur exWhite3 zeros27 ≠ applyFilterPar blurPixel exWhite3 ones27 ∧
    (applyBlur exWhite3 zeros27).data.getD 12 0 =
      (applyFilterPar blurPixel exWhite3 ones27).data.getD 12 0 := by
  exact ⟨applyFilter_eq_par, by decide, by decide⟩

/-- C6 witness: sequential and parallel runs coincide on the all-white 3x3
image when both scratch buffers happen to hold the same bytes. -/
theorem claim_C6_witness :
    applyFilter blurPixel exWhite3 zeros27 = applyFilterPar blurPixel exWhite3 zeros27 :=
  claim_C6.1 blurPixel exWhite3 zeros27 (by decide)

/-- C7: the spec asserts that the Average policy maps a constant-color image
to itself and is idempotent on it.  The code violates both parts through the
uninitialized border: on the all-200 3x3 image with scratch bytes 9 the
once-filtered image differs from the input (its border is 9), and a second
application turns the center into `(8*9 + 200)/9 = 30`, differing from the
once-filtered center 200. -/
theorem claim_C7 :
    (applyBlur const200 nines27).data ≠ const200.data ∧
    (applyBlur const200 nines27).data.getD 12 0 = 200 ∧
    (applyBlur (applyBlur const200 nines27) nines27).data.getD 12 0 = 30 := by
  refine ⟨by decide, by decide, by decide⟩

/-- C8: the Sobel policy on a constant-color image outputs 0 in every
channel of every interior pixel: both kernel weight sums are 0, so both
gradients vanish. -/
theorem claim_C8 (w h v : Nat) (garbage : List Nat) (x y c : Nat)
    (hlen : garbage.length = 3 * w * h) (hw : 3 ≤ w) (hh : 3 ≤ h)
    (hx1 : 1 ≤ x) (hx2 : x ≤ w - 2) (hy1 : 1 ≤ y) (hy2 : y ≤ h - 2)
    (hc : c < 3) :
    (applyEdgeDetection (constImage w h v) garbage).data.getD
      (3 * (y * w + x) + c) 0 = 0 := by
  have hx2' : x < w - 1 := by omega
  have hy2' : y < h - 1 := by omega
  have hint : (applyEdgeDetection (constImage w h v) garbage).data.getD
      (3 * (y * w + x) + c) 0 = sobelPixel (constImage w h v) x y c :=
    applyFilter_interior sobelPixel (constImage w h v) garbage hlen x y c
      hx1 hx2' hy1 hy2' hc
  rw [hint]
  unfold sobelPixel
  rw [sobelG_const GxKernel w h v x y c hx1 hx2' hy1 hy2' hc,
    sobelG_const GyKernel w h v x y c hx1 hx2' hy1 hy2' hc]
  have e1 : (offsets.map fun rs => kElem GxKernel rs.1 rs.2).sum = 0 := by decide
  have e2 : (offsets.map fun rs => kElem GyKernel rs.1 rs.2).sum = 0 := by decide
  rw [e1, e2]
  simp [toByte]

/-- C8 witness: the interior of the all-200 3x3 image maps to 0. -/
theorem claim_C8_witness :
    (applyEdgeDetection (constImage 3 3 200) zeros27).data.getD
      (3 * (1 * 3 + 1) + 0) 0 = 0 :=
  claim_C8 3 3 200 zeros27 1 1 0 (by decide) (by decide) (by decide)
    (by decide) (by decide) (by decide) (by decide) (by decide)

/-- C9: a header whose magic token is not "P6" or whose declared maximum is
not 255 makes `readPPM` call `exit(1)`, so the run is fatal and `writePPM`
is never reached: no output file is produced. -/
theorem claim_C9 (file : PPMFile) (filterType : Int) (g1 g2 : List Nat)
    (hbad : file.format ≠ "P6" ∨ file.maxColor ≠ 255) :
    runMain file filterType g1 g2 = ProgOutcome.fatal := by
  have hnot : ¬(file.format = "P6" ∧ file.maxColor = MAX_COLOR) := by
    unfold MAX_COLOR
    tauto
  unfold runMain readPPM
  rw [if_neg hnot]

/-- C9 witness: a "P5" header is fatal. -/
theorem claim_C9_witness :
    runMain ⟨"P5", 2, 2, 255, []⟩ 1 [] [] = ProgOutcome.fatal :=
  claim_C9 ⟨"P5", 2, 2, 255, []⟩ 1 [] [] (Or.inl (by decide))

/-- C10: any `filter_type` other than 1 and 2 selects neither filter branch,
so the decoded image passes through unchanged and `writePPM` writes exactly
the decoded input buffer — a silent no-op, not an error. -/
theorem claim_C10 (file : PPMFile) (filterType : Int) (g1 g2 : List Nat)
    (img : Image) (h1 : filterType ≠ 1) (h2 : filterType ≠ 2)
    (hdec : readPPM file = some img) :
    runMain file filterType g1 g2 = ProgOutcome.wrote img := by
  unfold runMain
  rw [hdec]
  show ProgOutcome.wrote (chooseFilter filterType img g2) = ProgOutcome.wrote img
  unfold chooseFilter
  rw [if_neg h1, if_neg h2]

/-- C10 witness: `filter_type = 3` writes the decoded 1x1 input unchanged. -/
theorem claim_C10_witness :
    runMain goodFile 3 [] [] =
      ProgOutcome.wrote { width := 1, height := 1, data := [10, 20, 30] } :=
  claim_C10 goodFile 3 [] [] { width := 1, height := 1, data := [10, 20, 30] }
    (by decide) (by decide) (by decide)
